import Mathlib

/-
  Verification development for termistat.cpp, a terminal system-resource
  dashboard.  Each C++ function used by the claims is shallowly embedded as
  a Lean definition; C `long` / `int` values are modelled as ℤ, C++ `float`
  arithmetic as exact rationals (ℚ), `unsigned long long` as ℕ with an
  explicit modulus 2^64 where wraparound could matter, and fallible file
  access as `Option`/`Bool` parameters describing the environment.
-/

namespace Termistat

/-! ## CPU sampler (`showCPU`, termistat.cpp lines 194-229)

`/proc/stat` yields seven cumulative counters.  The function keeps two
static longs `prevIdle`, `prevTotal` (zero-initialised) across calls. -/

/-- The seven counters parsed from the aggregate cpu line of `/proc/stat`. -/
structure CPUSample where
  user : ℤ
  nice : ℤ
  system : ℤ
  idle : ℤ
  iowait : ℤ
  irq : ℤ
  softirq : ℤ
deriving DecidableEq, Repr

/-- `long idleTime = idle + iowait;` -/
def idleTimeOf (s : CPUSample) : ℤ := s.idle + s.iowait

/-- `long totalTime = user + nice + system + idleTime + irq + softirq;` -/
def totalTimeOf (s : CPUSample) : ℤ :=
  s.user + s.nice + s.system + idleTimeOf s + s.irq + s.softirq

/-- The static state of `showCPU`: `static long prevIdle = 0, prevTotal = 0;` -/
structure CPUState where
  prevIdle : ℤ
  prevTotal : ℤ
deriving DecidableEq, Repr

/-- One call of `showCPU` restricted to its usage computation: returns the
usage percentage passed to `drawProgressBar` and the updated static state.
Mirrors lines 202-212 of termistat.cpp. -/
def showCPUStep (st : CPUState) (s : CPUSample) : ℚ × CPUState :=
  let idleTime := idleTimeOf s
  let totalTime := totalTimeOf s
  let deltaIdle := idleTime - st.prevIdle
  let deltaTotal := totalTime - st.prevTotal
  let usage : ℚ :=
    if deltaTotal ≠ 0 then
      100 * ((deltaTotal : ℚ) - (deltaIdle : ℚ)) / (deltaTotal : ℚ)
    else 0
  (usage, ⟨idleTime, totalTime⟩)

lemma showCPUStep_usage (st : CPUState) (s : CPUSample) :
    (showCPUStep st s).1 =
      if totalTimeOf s - st.prevTotal = 0 then 0
      else 100 * (((totalTimeOf s - st.prevTotal : ℤ) : ℚ)
          - ((idleTimeOf s - st.prevIdle : ℤ) : ℚ))
        / ((totalTimeOf s - st.prevTotal : ℤ) : ℚ) := by
  by_cases h : totalTimeOf s - st.prevTotal = 0 <;>
    simp [showCPUStep, h]

lemma showCPUStep_state (st : CPUState) (s : CPUSample) :
    (showCPUStep st s).2 = ⟨idleTimeOf s, totalTimeOf s⟩ := rfl

/-- C1: `showCPU` computes `idleTime = idle + iowait`,
`totalTime = user + nice + system + idle + iowait + irq + softirq`, reports
`usage = 100·(ΔtotalTime − ΔidleTime)/ΔtotalTime` with the deltas taken
against the previous sample's stored `idleTime`/`totalTime` and `usage = 0`
when `ΔtotalTime = 0`; on the synthetic consecutive samples
`(idle = 100, total = 200)` then `(idle = 150, total = 400)` the second
reported usage is 75.0%. -/
theorem cpu_usage_formula (s : CPUSample) (st : CPUState) :
    idleTimeOf s = s.idle + s.iowait ∧
    totalTimeOf s =
      s.user + s.nice + s.system + s.idle + s.iowait + s.irq + s.softirq ∧
    (showCPUStep st s).1 =
      (if totalTimeOf s - st.prevTotal = 0 then 0
       else 100 * (((totalTimeOf s - st.prevTotal : ℤ) : ℚ)
           - ((idleTimeOf s - st.prevIdle : ℤ) : ℚ))
         / ((totalTimeOf s - st.prevTotal : ℤ) : ℚ)) ∧
    (showCPUStep st s).2 = ⟨idleTimeOf s, totalTimeOf s⟩ ∧
    (showCPUStep (showCPUStep st ⟨100, 0, 0, 100, 0, 0, 0⟩).2
        ⟨250, 0, 0, 150, 0, 0, 0⟩).1 = 75 := by
  refine ⟨rfl, ?_, showCPUStep_usage st s, showCPUStep_state st s, ?_⟩
  · simp [totalTimeOf, idleTimeOf]; ring
  · rw [showCPUStep_state]
    norm_num [showCPUStep, totalTimeOf, idleTimeOf]

/-- C2 counterexample: on the very first sample (previous counters both
zero), a sample with `idleTime = 100`, `totalTime = 200` reports 50%, not
0%. -/
theorem first_sample_not_zero :
    (showCPUStep ⟨0, 0⟩ ⟨100, 0, 0, 100, 0, 0, 0⟩).1 ≠ 0 := by
  norm_num [showCPUStep, totalTimeOf, idleTimeOf]

/-- C2 (amended): on the very first sample after startup (previous counters
both zero) the reported usage is `100·(totalTime − idleTime)/totalTime`, the
cumulative average since boot — a skewed startup reading — and is 0% only in
the degenerate case `totalTime = 0`. -/
theorem first_sample_usage (s : CPUSample) :
    (showCPUStep ⟨0, 0⟩ s).1 =
      if totalTimeOf s = 0 then 0
      else 100 * ((totalTimeOf s : ℚ) - (idleTimeOf s : ℚ)) / (totalTimeOf s : ℚ) := by
  rw [showCPUStep_usage]
  simp

/-! ## Renderer (`drawProgressBar`, termistat.cpp lines 72-102)

`int pos = percent * width / 100;` computes in `float` and then truncates
toward zero; the loop prints `width` cells, cell `i` filled iff `i < pos`;
the text appends the percentage with one decimal place
(`fixed << setprecision(1)`). -/

/-- C's float-to-int conversion: truncation toward zero. -/
def cTrunc (q : ℚ) : ℤ := if 0 ≤ q then ⌊q⌋ else ⌈q⌉

/-- Colour choice of `drawProgressBar` (lines 76-92), as the ANSI escape
string assigned to `color`. -/
def barColor (percent : ℚ) (invertColors : Bool) : String :=
  if !invertColors then
    if percent < 60 then "\x1b[42m"
    else if percent < 85 then "\x1b[43m"
    else "\x1b[41m"
  else
    if percent < 30 then "\x1b[41m"
    else if percent < 75 then "\x1b[43m"
    else "\x1b[42m"

/-- Observable output of one `drawProgressBar` call: the sequence of bar
cells (`true` = coloured block, `false` = gray block), the colour used for
filled cells, and the printed percentage in tenths. -/
structure BarOutput where
  cells : List Bool
  color : String
  textTenths : ℤ
deriving DecidableEq, Repr

/-- Shallow embedding of `drawProgressBar(percent, width, invertColors)`.
`pos = percent * width / 100` truncated toward zero; the loop emits exactly
`width` cells; the printed number is `percent` rounded to one decimal
(modelled in tenths). -/
def drawProgressBar (percent : ℚ) (width : ℤ) (invertColors : Bool) : BarOutput :=
  let pos := cTrunc (percent * (width : ℚ) / 100)
  { cells := (List.range width.toNat).map (fun i : ℕ => decide ((i : ℤ) < pos)),
    color := barColor percent invertColors,
    textTenths := round (10 * percent) }

lemma count_range_lt (n : ℕ) (pos : ℤ) :
    (((List.range n).map (fun i : ℕ => decide ((i : ℤ) < pos))).count true : ℤ)
      = min (max pos 0) n := by
  induction n with
  | zero => simp
  | succ n ih =>
      rw [List.range_succ, List.map_append, List.count_append]
      by_cases h : (n : ℤ) < pos <;> simp [h] <;> omega

lemma drawProgressBar_length (p : ℚ) (w : ℤ) (inv : Bool) :
    (drawProgressBar p w inv).cells.length = w.toNat := by
  simp [drawProgressBar]

lemma drawProgressBar_count (p : ℚ) (w : ℤ) (inv : Bool) (hw : 0 ≤ w) :
    ((drawProgressBar p w inv).cells.count true : ℤ)
      = min (max (cTrunc (p * (w : ℚ) / 100)) 0) w := by
  rw [drawProgressBar, count_range_lt]
  congr 1
  omega

/-- C10: for every percent value, also outside [0,100], and every positive
width, `drawProgressBar` emits exactly `width` bar cells, of which
`min(max(trunc(percent·width/100), 0), width)` are filled; out-of-range
percent never changes the number of cells drawn. -/
theorem bar_cells_clamped (p : ℚ) (w : ℤ) (inv : Bool) (hw : 0 < w) :
    (drawProgressBar p w inv).cells.length = w.toNat ∧
    ((drawProgressBar p w inv).cells.count true : ℤ)
      = min (max (cTrunc (p * (w : ℚ) / 100)) 0) w :=
  ⟨drawProgressBar_length p w inv, drawProgressBar_count p w inv hw.le⟩

/-- C10 witness: percent 150 over width 30 still draws exactly 30 cells,
all 30 filled. -/
theorem bar_cells_clamped_witness :
    (drawProgressBar 150 30 false).cells.length = (30 : ℤ).toNat ∧
    ((drawProgressBar 150 30 false).cells.count true : ℤ)
      = min (max (cTrunc (150 * ((30 : ℤ) : ℚ) / 100)) 0) 30 :=
  bar_cells_clamped 150 30 false (by norm_num)

lemma cTrunc_of_nonneg {q : ℚ} (h : 0 ≤ q) : cTrunc q = ⌊q⌋ := if_pos h

/-- C3: for percent in [0, 100] and positive width, the filled-cell count of
`drawProgressBar` is exactly `⌊percent·width/100⌋`, and the appended numeric
text shows percent rounded to one decimal place (the printed tenths value is
within 1/20 of percent). -/
theorem bar_filled_and_text (p : ℚ) (w : ℤ) (inv : Bool)
    (h0 : 0 ≤ p) (h100 : p ≤ 100) (hw : 0 < w) :
    ((drawProgressBar p w inv).cells.count true : ℤ) = ⌊p * (w : ℚ) / 100⌋ ∧
    |p - ((drawProgressBar p w inv).textTenths : ℚ) / 10| ≤ 1 / 20 := by
  constructor
  · rw [drawProgressBar_count p w inv hw.le]
    have hwq : (0 : ℚ) ≤ (w : ℚ) := by exact_mod_cast hw.le
    have hq : 0 ≤ p * (w : ℚ) / 100 := by positivity
    rw [cTrunc_of_nonneg hq]
    have hle : p * (w : ℚ) / 100 ≤ (w : ℚ) := by
      rw [div_le_iff₀ (by norm_num : (0 : ℚ) < 100)]
      nlinarith
    have h1 : (0 : ℤ) ≤ ⌊p * (w : ℚ) / 100⌋ := Int.floor_nonneg.mpr hq
    have h2 : ⌊p * (w : ℚ) / 100⌋ ≤ w := by
      have := Int.floor_le_floor hle
      simpa using this
    omega
  · have h : |10 * p - (round (10 * p) : ℚ)| ≤ 1 / 2 := abs_sub_round (10 * p)
    have heq : |p - ((drawProgressBar p w inv).textTenths : ℚ) / 10|
        = |10 * p - (round (10 * p) : ℚ)| / 10 := by
      rw [show (drawProgressBar p w inv).textTenths = round (10 * p) from rfl]
      rw [show p - (round (10 * p) : ℚ) / 10
            = (10 * p - (round (10 * p) : ℚ)) / 10 by ring]
      rw [abs_div]
      norm_num
    rw [heq]
    linarith

/-- C3 witness: percent 75 over width 40 fills exactly 30 cells and prints
75.0. -/
theorem bar_filled_and_text_witness :
    ((drawProgressBar 75 40 false).cells.count true : ℤ)
        = ⌊(75 : ℚ) * ((40 : ℤ) : ℚ) / 100⌋ ∧
    |(75 : ℚ) - ((drawProgressBar 75 40 false).textTenths : ℚ) / 10| ≤ 1 / 20 :=
  bar_filled_and_text 75 40 false (by norm_num) (by norm_num) (by norm_num)

/-- C4: `drawProgressBar` picks its colour by fixed thresholds on percent:
normal mode green below 60, yellow on [60, 85), red at or above 85; inverted
mode red below 30, yellow on [30, 75), green at or above 75. -/
theorem bar_color_thresholds (p : ℚ) :
    (∀ w inv, (drawProgressBar p w inv).color = barColor p inv) ∧
    (p < 60 → barColor p false = "\x1b[42m") ∧
    (60 ≤ p → p < 85 → barColor p false = "\x1b[43m") ∧
    (85 ≤ p → barColor p false = "\x1b[41m") ∧
    (p < 30 → barColor p true = "\x1b[41m") ∧
    (30 ≤ p → p < 75 → barColor p true = "\x1b[43m") ∧
    (75 ≤ p → barColor p true = "\x1b[42m") := by
  refine ⟨fun w inv => rfl, fun h => ?_, fun h1 h2 => ?_, fun h => ?_,
    fun h => ?_, fun h1 h2 => ?_, fun h => ?_⟩
  · simp [barColor, h]
  · simp [barColor, not_lt.mpr h1, h2]
  · simp [barColor, not_lt.mpr (by linarith : (60 : ℚ) ≤ p),
      not_lt.mpr (by linarith : (85 : ℚ) ≤ p)]
  · simp [barColor, h]
  · simp [barColor, not_lt.mpr h1, h2]
  · simp [barColor, not_lt.mpr (by linarith : (30 : ℚ) ≤ p),
      not_lt.mpr (by linarith : (75 : ℚ) ≤ p)]

/-- C4 witness: 70% in normal mode is in the yellow band. -/
theorem bar_color_thresholds_witness : barColor 70 false = "\x1b[43m" :=
  (bar_color_thresholds 70).2.2.1 (by norm_num) (by norm_num)

/-! ## String helpers shared by the samplers

`std::string::find(pat) != npos` is a substring test; `find(pat) == 0` is a
test that `pat` occurs at position 0, i.e. is a prefix. -/

/-- `isPre p l` holds when the character list `p` occurs at the start of
`l` (`std::string::find(p) == 0`). -/
def isPre : List Char → List Char → Bool
  | [], _ => true
  | _ :: _, [] => false
  | a :: as, b :: bs => a == b && isPre as bs

lemma isPre_iff (p l : List Char) : isPre p l = true ↔ ∃ t, l = p ++ t := by
  induction p generalizing l with
  | nil => simp [isPre]
  | cons a as ih =>
      cases l with
      | nil => simp [isPre]
      | cons b bs =>
          simp only [isPre, Bool.and_eq_true, beq_iff_eq, ih, List.cons_append,
            List.cons.injEq]
          constructor
          · rintro ⟨rfl, t, rfl⟩
            exact ⟨t, rfl, rfl⟩
          · rintro ⟨t, rfl, rfl⟩
            exact ⟨rfl, t, rfl⟩

/-- `subMatch p l` holds when `p` occurs somewhere in `l`
(`std::string::find(p) != npos`). -/
def subMatch (p : List Char) : List Char → Bool
  | [] => isPre p []
  | c :: cs => isPre p (c :: cs) || subMatch p cs

lemma subMatch_iff (p l : List Char) :
    subMatch p l = true ↔ ∃ a b, l = a ++ p ++ b := by
  induction l with
  | nil =>
      simp only [subMatch, isPre_iff]
      constructor
      · rintro ⟨t, ht⟩
        exact ⟨[], t, by simpa using ht⟩
      · rintro ⟨a, b, hab⟩
        have h : a = [] ∧ p = [] ∧ b = [] := by
          have := hab.symm
          simpa [List.append_eq_nil] using this
        exact ⟨[], by simp [h.2.1]⟩
  | cons c cs ih =>
      simp only [subMatch, Bool.or_eq_true, isPre_iff, ih]
      constructor
      · rintro (⟨t, ht⟩ | ⟨a, b, hab⟩)
        · exact ⟨[], t, by simp [ht]⟩
        · exact ⟨c :: a, b, by simp [hab]⟩
      · rintro ⟨a, b, hab⟩
        cases a with
        | nil => exact Or.inl ⟨b, by simpa using hab⟩
        | cons a0 as =>
            rw [List.cons_append, List.cons_append, List.cons.injEq] at hab
            exact Or.inr ⟨as, b, hab.2⟩

/-- Substring occurrence as a proposition on strings: `pat` occurs inside
`s`. -/
def ContainsSub (pat s : String) : Prop :=
  ∃ a b, s.data = a ++ pat.data ++ b

/-! ## Memory sampler (`showMemory`, termistat.cpp lines 119-138)

The loop scans `/proc/meminfo` lines, keeping the last values parsed after
the prefixes `MemTotal:` and `MemAvailable:`; both longs start at 0.  The
percentage `100.0f * used / memTotal` is divided by `memTotal` with no
guard. -/

/-- Digit-run parser: consumes leading decimal digits, accumulating their
value, and stops at the first non-digit (the behaviour of `std::stol` after
whitespace skipping). -/
def digitsVal : List Char → ℕ → ℕ
  | [], acc => acc
  | c :: cs, acc =>
      if c.isDigit then digitsVal cs (10 * acc + (c.toNat - 48)) else acc

/-- `std::stol`: skip leading spaces, optional minus sign, then digits. -/
def stol (s : String) : ℤ :=
  match s.data.dropWhile (fun c => c = ' ') with
  | '-' :: cs => -(digitsVal cs 0 : ℤ)
  | cs => (digitsVal cs 0 : ℤ)

/-- The parsing loop of `showMemory` (lines 124-129): returns
`(memTotal, memAvailable)` after scanning all lines. -/
def parseMeminfo (lines : List String) : ℤ × ℤ :=
  lines.foldl
    (fun acc line =>
      let acc1 :=
        if isPre "MemTotal:".data line.data then
          (stol (line.drop 9), acc.2)
        else acc
      if isPre "MemAvailable:".data line.data then
        (acc1.1, stol (line.drop 13))
      else acc1)
    (0, 0)

/-- The percentage computation of `showMemory` (lines 131-132):
`used = memTotal - memAvailable; percent = 100.0f * used / memTotal`.
The division carries no guard, so `memTotal = 0` reaches a division by
zero, modelled as `.error ()`. -/
def showMemoryPercent (lines : List String) : Except Unit ℚ :=
  let parsed := parseMeminfo lines
  let used := parsed.1 - parsed.2
  if parsed.1 = 0 then .error ()
  else .ok (100 * (used : ℚ) / (parsed.1 : ℚ))

/-- The per-mount percentage computation of `showDisk` (lines 290-293), in
terms of the `statvfs` fields (unsigned 64-bit, hence the modulus):
`total = f_blocks * f_frsize; free = f_bfree * f_frsize;
used = total - free; percent = 100.0f * used / total`, with no guard on
`total = 0`, modelled as `.error ()`. -/
def showDiskPercent (f_blocks f_frsize f_bfree : ℕ) : Except Unit ℚ :=
  let total : ℕ := (f_blocks * f_frsize) % 2 ^ 64
  let free : ℕ := (f_bfree * f_frsize) % 2 ^ 64
  let used : ℕ := (total + (2 ^ 64 - free)) % 2 ^ 64
  if total = 0 then .error ()
  else .ok (100 * (used : ℚ) / (total : ℚ))

/-- C5: the memory and disk percentage computations divide by the total
capacity unguarded: each hits its division by zero exactly when the total
reads as zero, and concrete inputs reach that branch (a meminfo reporting
`MemTotal: 0 kB`, and a statvfs result with `f_blocks = 0`). -/
theorem divzero_reachable :
    (∀ lines, showMemoryPercent lines = .error () ↔ (parseMeminfo lines).1 = 0) ∧
    (∀ f_blocks f_frsize f_bfree,
      showDiskPercent f_blocks f_frsize f_bfree = .error ()
        ↔ (f_blocks * f_frsize) % 2 ^ 64 = 0) ∧
    showMemoryPercent ["MemTotal: 0 kB", "MemAvailable: 0 kB"] = .error () ∧
    showDiskPercent 0 4096 0 = .error () := by
  refine ⟨fun lines => ?_, fun a b c => ?_, ?_, ?_⟩
  · by_cases h : (parseMeminfo lines).1 = 0 <;> simp [showMemoryPercent, h]
  · by_cases h : (a * b) % 2 ^ 64 = 0 <;> simp [showDiskPercent, h]
  · rfl
  · rfl

/-! ## Disk sampler mount filter (`showDisk`, termistat.cpp lines 279-286)

`if (mountpoint.find("/dev") != string::npos ||
     mountpoint.find("/sys") != string::npos) continue;` -/

/-- The skip test applied to each mountpoint parsed from `/proc/mounts`. -/
def skipMount (mountpoint : String) : Bool :=
  subMatch "/dev".data mountpoint.data || subMatch "/sys".data mountpoint.data

/-- C6: the disk sampler skips a mount entry iff its mountpoint contains
`/dev` or `/sys` anywhere as a substring — not only as a path prefix; in
particular the legitimate mountpoint `/home/dev-user` is excluded. -/
theorem disk_skip_substring (mountpoint : String) :
    (skipMount mountpoint = true
      ↔ ContainsSub "/dev" mountpoint ∨ ContainsSub "/sys" mountpoint) ∧
    skipMount "/home/dev-user" = true := by
  constructor
  · simp only [skipMount, Bool.or_eq_true, subMatch_iff]
    exact Iff.rfl
  · rfl

/-! ## Battery sampler (`readBattery` / `showBattery`, termistat.cpp
lines 236-267)

Both files live under the hardcoded path
`/sys/class/power_supply/BAT0/`. -/

/-- `struct BatteryInfo` (lines 46-50). -/
structure BatteryInfo where
  capacity : ℤ
  status : String
  available : Bool
deriving DecidableEq, Repr

/-- The filesystem environment seen by `readBattery`: whether each of the
two files at the BAT0 path opens, and the contents read when it does. -/
structure BatteryFS where
  capOpen : Bool
  capValue : ℤ
  statusOpen : Bool
  statusLine : String
deriving DecidableEq, Repr

/-- `readBattery` (lines 236-251): the struct starts as
`{ -1, "Unknown", false }` and is overwritten only when both files open. -/
def readBattery (fs : BatteryFS) : BatteryInfo :=
  let info : BatteryInfo := ⟨-1, "Unknown", false⟩
  if fs.capOpen && fs.statusOpen then
    ⟨fs.capValue, fs.statusLine, true⟩
  else info

/-- What `showBattery` prints after the title: either the status line plus
an inverted-colour bar, or a placeholder message. -/
inductive BatteryDisplay where
  | info (status : String) (bar : BarOutput)
  | placeholder (msg : String)
deriving DecidableEq, Repr

/-- `showBattery` (lines 256-267). -/
def showBattery (fs : BatteryFS) : BatteryDisplay :=
  let bat := readBattery fs
  if bat.available then
    .info bat.status (drawProgressBar (bat.capacity : ℚ) 40 true)
  else .placeholder "Battery info not available"

/-- C7: the battery sampler reports `available = true` iff both the
capacity file and the status file at the fixed BAT0 path open successfully,
and whenever it is unavailable the display is the placeholder message
instead of a status and bar. -/
theorem battery_available (fs : BatteryFS) :
    ((readBattery fs).available = (fs.capOpen && fs.statusOpen)) ∧
    (showBattery fs = .placeholder "Battery info not available"
      ↔ (fs.capOpen && fs.statusOpen) = false) := by
  cases fs with
  | mk capOpen capValue statusOpen statusLine =>
      cases capOpen <;> cases statusOpen <;>
        simp [readBattery, showBattery]

/-! ## Fan-speed scan (`readFanRPM`, termistat.cpp lines 162-186)

For each directory under `/sys/class/hwmon/`: if the `name` file does not
open, `continue` — no `fanN_input` file of that directory is examined.
Otherwise `fan1_input` .. `fan5_input` are tried in order and the first
strictly-positive reading is returned; if no directory yields one the
function returns −1. -/

/-- One hwmon directory as the scan sees it: whether its `name` file opens,
and for each of the fan input files `fan1_input` .. `fan5_input` in order,
`none` when the file does not open and `some rpm` for the value read. -/
structure HwmonDir where
  nameReadable : Bool
  fans : List (Option ℤ)
deriving DecidableEq, Repr

/-- The inner loop over `fan1_input` .. `fan5_input` (lines 174-183):
first strictly-positive reading among the files that open. -/
def dirFan : List (Option ℤ) → Option ℤ
  | [] => none
  | none :: rest => dirFan rest
  | some rpm :: rest => if 0 < rpm then some rpm else dirFan rest

/-- `readFanRPM` over the directory enumeration of `/sys/class/hwmon/`. -/
def readFanRPM : List HwmonDir → ℤ
  | [] => -1
  | d :: ds =>
      if d.nameReadable then
        match dirFan d.fans with
        | some rpm => rpm
        | none => readFanRPM ds
      else readFanRPM ds

/-- The strictly-positive readings of one directory, in file order. -/
def posReadings (fans : List (Option ℤ)) : List ℤ :=
  (fans.filterMap id).filter (fun r => decide (0 < r))

/-- All candidate readings, in scan order, contributed by directories whose
`name` file opens. -/
def fanCandidates : List HwmonDir → List ℤ
  | [] => []
  | d :: ds =>
      if d.nameReadable then posReadings d.fans ++ fanCandidates ds
      else fanCandidates ds

lemma dirFan_eq_head (fans : List (Option ℤ)) :
    dirFan fans = (posReadings fans).head? := by
  induction fans with
  | nil => rfl
  | cons f rest ih =>
      cases f with
      | none => simpa [dirFan, posReadings] using ih
      | some rpm =>
          by_cases h : 0 < rpm
          · simp [dirFan, posReadings, h]
          · simpa [dirFan, posReadings, h] using ih

lemma readFanRPM_eq (dirs : List HwmonDir) :
    readFanRPM dirs = ((fanCandidates dirs).head?).getD (-1) := by
  induction dirs with
  | nil => rfl
  | cons d ds ih =>
      by_cases hn : d.nameReadable
      · cases hp : posReadings d.fans with
        | nil => simp [readFanRPM, fanCandidates, hn, dirFan_eq_head, hp, ih]
        | cons r rs => simp [readFanRPM, fanCandidates, hn, dirFan_eq_head, hp]
      · simp [readFanRPM, fanCandidates, hn, ih]

/-- C9: a hwmon directory whose `name` file cannot be opened is skipped
entirely — the result is the same as if the directory were absent, whatever
its fan files hold — and the returned value is the first strictly-positive
reading, in scan order, among the directories with a readable `name` file,
or −1 when there is none. -/
theorem fan_scan_skips_unnamed (dirs ds : List HwmonDir) (d : HwmonDir)
    (fans : List (Option ℤ)) (h : d.nameReadable = false) :
    readFanRPM dirs = ((fanCandidates dirs).head?).getD (-1) ∧
    readFanRPM (d :: ds) = readFanRPM ds ∧
    readFanRPM ({ nameReadable := false, fans := fans } :: ds)
      = readFanRPM ds := by
  refine ⟨readFanRPM_eq dirs, ?_, ?_⟩
  · simp [readFanRPM, h]
  · simp [readFanRPM]

/-- C9 witness: a directory with unreadable `name` but a spinning fan at
1200 RPM contributes nothing; the scan returns −1 when no readable
directory remains. -/
theorem fan_scan_skips_unnamed_witness :
    readFanRPM [⟨false, [some 1200]⟩] =
      ((fanCandidates [(⟨false, [some 1200]⟩ : HwmonDir)]).head?).getD (-1) ∧
    readFanRPM ((⟨false, [some 1200]⟩ : HwmonDir) :: []) = readFanRPM [] ∧
    readFanRPM ({ nameReadable := false, fans := [some 1200] } :: [])
      = readFanRPM [] :=
  fan_scan_skips_unnamed [⟨false, [some 1200]⟩] [] ⟨false, [some 1200]⟩
    [some 1200] rfl

/-! ## Input controller (`setNonBlocking`, termistat.cpp lines 19-41)

`static struct termios oldt; static bool saved = false;` persists across
calls.  `enable(true)` saves the current termios once, then installs a copy
with `ICANON` and `ECHO` cleared and sets `O_NONBLOCK` via `fcntl`.
`enable(false)` writes back the saved termios and clears `O_NONBLOCK`
unconditionally; the original `fcntl` flag state is never saved. -/

/-- The termios settings relevant here: the two `c_lflag` bits the code
clears, and the remaining opaque configuration. -/
structure Termios where
  icanon : Bool
  echo : Bool
  rest : ℕ
deriving DecidableEq, Repr

/-- The observable terminal configuration: its termios plus the
`O_NONBLOCK` file-status flag. -/
structure TermState where
  tio : Termios
  nonblock : Bool
deriving DecidableEq, Repr

/-- The process state around `setNonBlocking`: the terminal configuration
and the static `oldt`/`saved` pair (`none` = not yet saved). -/
structure DriverState where
  term : TermState
  saved : Option Termios
deriving DecidableEq, Repr

/-- `newt.c_lflag &= ~(ICANON | ECHO);` -/
def rawTio (t : Termios) : Termios := { t with icanon := false, echo := false }

/-- One call `setNonBlocking(enable)` (lines 19-41).  On `enable = true` the
current termios is saved only if not already saved, the raw copy of the
saved termios is installed, and `O_NONBLOCK` is set.  On `enable = false`
nothing happens unless saved; otherwise the saved termios is written back
and `O_NONBLOCK` is cleared. -/
def setNonBlocking (enable : Bool) (s : DriverState) : DriverState :=
  if enable then
    let oldt := s.saved.getD s.term.tio
    { term := { tio := rawTio oldt, nonblock := true }, saved := some oldt }
  else
    match s.saved with
    | some oldt => { term := { tio := oldt, nonblock := false }, saved := some oldt }
    | none => s

/-- A sequence of `setNonBlocking` calls with the given arguments. -/
def runCalls (seq : List Bool) (s : DriverState) : DriverState :=
  seq.foldl (fun st en => setNonBlocking en st) s

lemma saved_stable (seq : List Bool) (s : DriverState) (x : Termios)
    (h : s.saved = some x) : (runCalls seq s).saved = some x := by
  induction seq generalizing s with
  | nil => simpa [runCalls] using h
  | cons en rest ih =>
      have h1 : (setNonBlocking en s).saved = some x := by
        cases en <;> simp [setNonBlocking, h]
      simpa [runCalls] using ih _ h1

/-- C8 counterexample: when the terminal starts out with `O_NONBLOCK`
already set, the sequence `enable(true); enable(false)` does not restore
the configuration to the prior saved mode — the non-blocking flag is
cleared unconditionally, because `fcntl` flags are never saved. -/
theorem terminal_restore_not_exact :
    (runCalls [true, false] ⟨⟨⟨true, true, 0⟩, true⟩, none⟩).term
      ≠ (⟨⟨⟨true, true, 0⟩, true⟩, none⟩ : DriverState).term := by
  decide

/-- C8 (amended): the termios settings are saved exactly once, at the first
`enable(true)` — before any save `enable(false)` is a no-op — later
`enable(true)` calls never overwrite the saved copy (it survives any call
sequence), and `enable(false)` after a save restores the termios exactly to
the saved copy while clearing the non-blocking flag unconditionally rather
than restoring its prior state. -/
theorem terminal_save_once_restore (s : DriverState) (x : Termios)
    (seq : List Bool) :
    (s.saved = none → (setNonBlocking true s).saved = some s.term.tio) ∧
    (s.saved = none → setNonBlocking false s = s) ∧
    (s.saved = some x → (setNonBlocking true s).saved = some x) ∧
    (s.saved = some x →
      setNonBlocking false s = ⟨⟨x, false⟩, some x⟩) ∧
    (s.saved = some x → (runCalls seq s).saved = some x) := by
  refine ⟨fun h => ?_, fun h => ?_, fun h => ?_, fun h => ?_,
    fun h => saved_stable seq s x h⟩
  · simp [setNonBlocking, h]
  · simp [setNonBlocking, h]
  · simp [setNonBlocking, h]
  · simp [setNonBlocking, h]

/-- C8 witness: a saved termios survives the call sequence
`enable(false); enable(true)`. -/
theorem terminal_save_once_restore_witness :
    (runCalls [false, true]
        ⟨⟨⟨true, true, 0⟩, false⟩, some ⟨true, false, 3⟩⟩).saved
      = some ⟨true, false, 3⟩ :=
  (terminal_save_once_restore ⟨⟨⟨true, true, 0⟩, false⟩, some ⟨true, false, 3⟩⟩
      ⟨true, false, 3⟩ [false, true]).2.2.2.2 rfl

end Termistat
